import Mathlib

/-!
Verification of the optimistic-mutation handlers of the productivity
front-end.

The development shallowly embeds the client-side mutation handlers of
`src/app/_components/Actions.tsx` (the `bulkUpdateMutation` lifecycle and
`handleOverdueBulkReschedule`), `src/app/_components/CalendarToggleButton.tsx`
(the `OutcomeMultiSelect` component's `createOutcomeMutation` and
`updateProject` handlers) and `src/app/(sidemenu)/tokens/page.tsx`
(`generateToken` / `revokeToken` error handlers).

Modelling conventions:
* The react-query cache entry for a query holds `Option (List _)`:
  `none` models an entry with no data (`getData()` returning `undefined`).
* Each handler is a pure function from its inputs and the current cache
  state to the new cache state plus a trace of observable events
  (`setData` writes, `invalidate` calls, notifications, delays, mutation
  start/settle boundaries).  `invalidate` marks a query stale; it does not
  change the cached data, so it appears only in the trace.
* JavaScript `Date` values are modelled as `Nat` timestamps; `Date`
  rendering in notification text is abbreviated to `toString`.
* The pervasive `console.log` debug tracing of success paths is elided;
  the `console.error` calls of the error paths are modelled as
  `consoleError` events (they are what the spec's "logged to a console
  stream" refers to).
* Notification colours/icons and the mutation timing fields
  (`mutationStartTime`, durations) are elided: no claim mentions them.
-/

namespace Exponential

/-- An action record as held in the `action.getAll` cache.  Only the fields
the handlers read or write are modelled (`id`, `name`, `dueDate`); a `null`
due date is `none`. -/
structure Action where
  id : String
  name : String
  dueDate : Option Nat
deriving Repr, DecidableEq

/-- The cached queries touched by the embedded handlers. -/
inductive Query where
  | actionGetAll
  | actionGetToday
  | actionGetProjectActions
  | outcomeGetMyOutcomes
  | projectGetActiveWithDetails
  | projectGetAll
deriving Repr, DecidableEq

/-- Observable events emitted by a handler, in program order. -/
inductive Event where
  /-- A mutation request is issued (`mutateAsync` begins). -/
  | mutateStart (id : String)
  /-- The mutation's promise settles; `ok` is true on success. -/
  | mutateSettle (id : String) (ok : Bool)
  /-- `await new Promise(resolve => setTimeout(resolve, n))`. -/
  | delayMs (n : Nat)
  /-- A `setData` write to the cache entry of query `q`. -/
  | setData (q : Query)
  /-- An `invalidate` call marking query `q` stale. -/
  | invalidate (q : Query)
  /-- A `notifications.show` / `notifications.update` toast. -/
  | notify (title message : String)
  /-- A `console.error` call (tag names the call site). -/
  | consoleError (tag : String)
deriving Repr, DecidableEq

/-- The optimistic cache rewrite performed in `bulkUpdateMutation.onMutate`:
`old.map(action => action.id === id ? { ...action, dueDate: dueDate ?? null }
: action)`. -/
def applyDueDateUpdate (id : String) (dueDate : Option Nat) (old : List Action) :
    List Action :=
  old.map fun a => if a.id = id then { a with dueDate := dueDate } else a

/-- Result of one run of the `action.update` mutation through the
`bulkUpdateMutation` handlers: the final `action.getAll` cache data, the
event trace, the `ok` flag of the settled promise, and the `previousData`
snapshot stored in the mutation context (the only cache data the context
captures). -/
structure MutResult where
  cache : Option (List Action)
  events : List Event
  ok : Bool
  ctxPreviousData : Option (List Action)
deriving Repr, DecidableEq

/-- One full run of the `action.update` mutation with the
`bulkUpdateMutation` handlers of `Actions.tsx`.

* `onMutate`: snapshot `previousData := utils.action.getAll.getData()`;
  if it is present, optimistically rewrite the cache with
  `applyDueDateUpdate`; the context returned is `{ previousData, ... }`.
* The server outcome is `serverError` (`none` = success, `some msg` =
  failure with error message `msg`).
* `onError` (failure only): `console.error`, then roll back with
  `setData(previousData)` when the snapshot is present, then show the
  "Update Failed" toast whose message interpolates
  `err.message || 'Unknown error'`.
* `onSettled` (always): invalidate `action.getAll` and `action.getToday`. -/
def runActionUpdate (id : String) (dueDate : Option Nat)
    (serverError : Option String) (cache : Option (List Action)) : MutResult :=
  let previousData := cache
  let optimistic : Option (List Action) :=
    previousData.map (applyDueDateUpdate id dueDate)
  let optimisticEvents : List Event :=
    if previousData.isSome then [Event.setData Query.actionGetAll] else []
  match serverError with
  | none =>
    { cache := optimistic
      events := Event.mutateStart id :: optimisticEvents ++
        [Event.mutateSettle id true,
         Event.invalidate Query.actionGetAll,
         Event.invalidate Query.actionGetToday]
      ok := true
      ctxPreviousData := previousData }
  | some msg =>
    let rollbackCache := match previousData with
      | some old => some old
      | none => optimistic
    let rollbackEvents : List Event :=
      if previousData.isSome then [Event.setData Query.actionGetAll] else []
    let shownMsg := if msg = "" then "Unknown error" else msg
    { cache := rollbackCache
      events := Event.mutateStart id :: optimisticEvents ++
        [Event.mutateSettle id false, Event.consoleError "onError"] ++
        rollbackEvents ++
        [Event.notify "Update Failed"
          ("Failed to update action " ++ id ++ ": " ++ shownMsg),
         Event.invalidate Query.actionGetAll,
         Event.invalidate Query.actionGetToday]
      ok := false
      ctxPreviousData := previousData }

/-- The `generateToken.onError` handler of `tokens/page.tsx`: a single toast
with `error.message || 'Failed to generate API key'`; no console logging. -/
def generateTokenOnError (errMessage : String) : List Event :=
  [Event.notify "Error"
    (if errMessage = "" then "Failed to generate API key" else errMessage)]

/-- The `revokeToken.onError` handler of `tokens/page.tsx`: a single toast
with `error.message || 'Failed to revoke API key'`; no console logging. -/
def revokeTokenOnError (errMessage : String) : List Event :=
  [Event.notify "Error"
    (if errMessage = "" then "Failed to revoke API key" else errMessage)]

/-- The `bulkDeleteMutation.onError` handler of `Actions.tsx`: a single toast
with `error.message || 'Failed to delete overdue actions'`; no console
logging. -/
def bulkDeleteOnError (errMessage : String) : List Event :=
  [Event.notify "Delete Failed"
    (if errMessage = "" then "Failed to delete overdue actions" else errMessage)]

/-- Whether a character list starts with the pattern (first argument). -/
def prefChars : List Char → List Char → Bool
  | [], _ => true
  | _ :: _, [] => false
  | a :: as, b :: bs => a == b && prefChars as bs

/-- Whether the pattern (first argument) occurs as a contiguous run in the
text (second argument). -/
def subChars (pat : List Char) : List Char → Bool
  | [] => prefChars pat []
  | c :: cs => prefChars pat (c :: cs) || subChars pat cs

/-- `s.includes(pat)` on strings, as used by the bulk-reschedule loop. -/
def strContains (s pat : String) : Bool :=
  subChars pat.data s.data

/-- The connection-failure classification of `handleOverdueBulkReschedule`:
`errorMessage.includes('Server has closed the connection') ||
errorMessage.includes('Connection reset by peer')`. -/
def isConnectionError (msg : String) : Bool :=
  strContains msg "Server has closed the connection" ||
    strContains msg "Connection reset by peer"

/-- Output of the sequential mutation loop of `handleOverdueBulkReschedule`:
final `action.getAll` cache data, event trace, and the `results` array
(`actionId` paired with `none` on success or the recorded error message). -/
structure LoopOut where
  cache : Option (List Action)
  events : List Event
  results : List (String × Option String)
deriving Repr, DecidableEq

/-- The `for` loop of `handleOverdueBulkReschedule`.  Each list element is an
action id paired with the server outcome its `mutateAsync` call will have
(`none` = resolve, `some msg` = reject with message `msg`).  Per iteration:
run the mutation (all its handlers included), record the result; on success
sleep 100 ms unless this was the last action; on failure `break` when the
message is classified as a connection error, otherwise continue. -/
def bulkLoop (date : Option Nat) :
    List (String × Option String) → Option (List Action) → LoopOut
  | [], cache => { cache := cache, events := [], results := [] }
  | (id, err) :: rest, cache =>
    let r := runActionUpdate id date err cache
    match err with
    | none =>
      let delayEvents : List Event :=
        if rest.isEmpty then [] else [Event.delayMs 100]
      let L := bulkLoop date rest r.cache
      { cache := L.cache
        events := r.events ++ delayEvents ++ L.events
        results := (id, (none : Option String)) :: L.results }
    | some msg =>
      if isConnectionError msg then
        { cache := r.cache, events := r.events, results := [(id, some msg)] }
      else
        let L := bulkLoop date rest r.cache
        { cache := L.cache
          events := r.events ++ L.events
          results := (id, some msg) :: L.results }

/-- The `action${count !== 1 ? 's' : ''}` pluralisation used in the bulk
notifications. -/
def pluralS (n : Nat) : String :=
  if n ≠ 1 then "s" else ""

/-- Output of `handleOverdueBulkReschedule`: final `action.getAll` cache data
and event trace. -/
structure BulkOut where
  cache : Option (List Action)
  events : List Event
deriving Repr, DecidableEq

/-- The `handleOverdueBulkReschedule` handler of `Actions.tsx`.

* An empty `actionIds` list returns immediately (only a debug log happens).
* Otherwise the `'bulk-reschedule'` loading notification is shown, the
  sequential loop runs, and the results are inspected: if any mutation
  failed an error is thrown (its message depending on whether a connection
  error was among the failures) and caught by the surrounding `try`, which
  updates the notification to "Bulk Update Failed"; if all succeeded the
  success notification is shown and `action.getAll`, `action.getToday`
  and (when a `projectId` is set) `action.getProjectActions` are
  invalidated one extra time. -/
def handleOverdueBulkReschedule (date : Option Nat) (projectId : Option String)
    (actions : List (String × Option String)) (cache : Option (List Action)) :
    BulkOut :=
  if actions.length = 0 then
    { cache := cache, events := [] }
  else
    let totalCount := actions.length
    let initialNotify := Event.notify "Rescheduling..."
      ("Updating " ++ toString totalCount ++ " action" ++ pluralS totalCount ++ "...")
    let L := bulkLoop date actions cache
    let failedResults := L.results.filter fun r => r.2.isSome
    let successfulResults := L.results.filter fun r => r.2.isNone
    let connectionErrors := failedResults.filter fun r =>
      match r.2 with
      | some m => isConnectionError m
      | none => false
    if failedResults.length > 0 then
      let thrownMsg :=
        if connectionErrors.length > 0 then
          "Database connection was lost during bulk update. " ++
            toString successfulResults.length ++ " of " ++ toString totalCount ++
            " actions were updated successfully. Please try again for the remaining " ++
            toString failedResults.length ++ " actions."
        else
          toString failedResults.length ++ " out of " ++ toString totalCount ++
            " mutations failed"
      { cache := L.cache
        events := initialNotify :: L.events ++
          [Event.notify "Bulk Update Failed"
            ("Failed to update actions. Error: " ++ thrownMsg)] }
    else
      let n := successfulResults.length
      let title := match date with
        | some _ => "Bulk Reschedule Complete"
        | none => "Due Date Removed"
      let message := match date with
        | some d =>
          "Successfully rescheduled " ++ toString n ++ " action" ++ pluralS n ++
            " to " ++ toString d
        | none =>
          "Successfully removed due date from " ++ toString n ++ " action" ++
            pluralS n
      { cache := L.cache
        events := initialNotify :: L.events ++ [Event.notify title message] ++
          [Event.invalidate Query.actionGetAll,
           Event.invalidate Query.actionGetToday] ++
          (match projectId with
           | some _ => [Event.invalidate Query.actionGetProjectActions]
           | none => []) }

/-- An outcome record of the `outcome.getMyOutcomes` cache.  The field
`type` of the source is named `otype` here.  The timestamp fields
(`createdAt`, `updatedAt`, `completedDate`) and the empty relation arrays
(`goals`, `projects`) of the source record are elided: no handler reads
them and no claim mentions them. -/
structure Outcome where
  id : String
  description : String
  otype : String
  dueDate : Option Nat
  status : String
  createdById : String
deriving Repr, DecidableEq

/-- An element of a project's `outcomes` array in the project caches.  The
source stores heterogeneous shapes in this array: `onMutate` writes the
mapped shape `{ id, description, dueDate, userId: null, type, projectId }`,
while `onSuccess` concatenates the raw server outcome record.  The two
constructors mirror that. -/
inductive POEntry where
  | mapped (oid description : String) (dueDate : Option Nat)
      (userId : Option String) (otype : String) (projectId : String)
  | raw (o : Outcome)
deriving Repr, DecidableEq

/-- The `id` of a project-outcome entry, as read by `o.id` in the source. -/
def POEntry.eid : POEntry → String
  | .mapped oid _ _ _ _ _ => oid
  | .raw o => o.id

/-- A project record of the `project.getActiveWithDetails` / `project.getAll`
caches; only the fields the handlers touch are modelled. -/
structure Project where
  id : String
  outcomes : List POEntry
deriving Repr, DecidableEq

/-- The three cache entries touched by the `OutcomeMultiSelect` handlers. -/
structure OutcomeCaches where
  myOutcomes : Option (List Outcome)
  activeProjects : Option (List Project)
  allProjects : Option (List Project)
deriving Repr, DecidableEq

/-- The provisional outcome synthesized in `createOutcomeMutation.onMutate`
for temporary id `temp-${now}`. -/
def tempOutcome (tempId description : String) : Outcome :=
  { id := tempId, description := description, otype := "weekly",
    dueDate := none, status := "ACTIVE", createdById := "" }

/-- The map into the project-outcome shape used by both `onMutate` blocks:
`{ id, description, dueDate, userId: null, type, projectId }`. -/
def mapToProjectEntry (projectId : String) (o : Outcome) : POEntry :=
  POEntry.mapped o.id o.description o.dueDate none o.otype projectId

/-- `old.map(p => p.id === projectId ? { ...p, outcomes } : p)`, the rewrite
both project caches receive. -/
def setProjectOutcomes (projectId : String) (outs : List POEntry)
    (ps : List Project) : List Project :=
  ps.map fun p => if p.id = projectId then { p with outcomes := outs } else p

/-- The context returned by `createOutcomeMutation.onMutate`:
`{ tempId, currentOutcomeIds, tempOutcome }`. -/
structure CreateOutcomeContext where
  tempId : String
  currentOutcomeIds : List String
  tempOut : Outcome
deriving Repr, DecidableEq

/-- `createOutcomeMutation.onMutate` of `OutcomeMultiSelect`.  `now` models
`Date.now()`, so the temporary id is `temp-${now}`.  A provisional outcome
is appended to `outcome.getMyOutcomes` (creating the entry when it held no
data), and both project caches get the project's `outcomes` replaced by
`[...currentOutcomes, tempOutcome]` in the mapped shape (when they hold
data).  `currentOutcomes` is the component prop of the same name. -/
def createOutcomeOnMutate (projectId : String) (currentOutcomes : List Outcome)
    (now : Nat) (description : String) (c : OutcomeCaches) :
    OutcomeCaches × CreateOutcomeContext :=
  let tempId := "temp-" ++ toString now
  let temp := tempOutcome tempId description
  let my : List Outcome := match c.myOutcomes with
    | none => [temp]
    | some old => old ++ [temp]
  let newOutcomes := currentOutcomes ++ [temp]
  let entries := newOutcomes.map (mapToProjectEntry projectId)
  ({ myOutcomes := some my
     activeProjects := c.activeProjects.map (setProjectOutcomes projectId entries)
     allProjects := c.allProjects.map (setProjectOutcomes projectId entries) },
   { tempId := tempId
     currentOutcomeIds := currentOutcomes.map Outcome.id
     tempOut := temp })

/-- The arguments of the chained `updateProject.mutate` call issued from
`createOutcomeMutation.onSuccess`. -/
structure UpdateProjectCall where
  id : String
  name : String
  status : String
  priority : String
  outcomeIds : List String
deriving Repr, DecidableEq

/-- `old.map(o => o.id === tempId ? newOutcome : o)`, the rewrite
`outcome.getMyOutcomes` receives in `onSuccess`. -/
def replaceById (tempId : String) (newOutcome : Outcome) (l : List Outcome) :
    List Outcome :=
  l.map fun o => if o.id = tempId then newOutcome else o

/-- `createOutcomeMutation.onSuccess` of `OutcomeMultiSelect`.  Every
occurrence of the temporary id in `outcome.getMyOutcomes` is replaced by the
server record; the target project's `outcomes` in both project caches are
replaced by the current `getActiveWithDetails` entry with the temporary
outcome filtered out and the raw server record concatenated; finally the
chained `updateProject.mutate` call is issued with
`[...currentOutcomeIds, newOutcome.id]`. -/
def createOutcomeOnSuccess (projectId projectName projectStatus projectPriority : String)
    (ctx : CreateOutcomeContext) (newOutcome : Outcome) (c : OutcomeCaches) :
    OutcomeCaches × UpdateProjectCall :=
  let my : List Outcome := match c.myOutcomes with
    | none => [newOutcome]
    | some old => replaceById ctx.tempId newOutcome old
  let currentProject := (c.activeProjects.getD []).find? fun p => p.id = projectId
  let projectOutcomes := (currentProject.map Project.outcomes).getD []
  let updatedOutcomes :=
    (projectOutcomes.filter fun o => o.eid != ctx.tempId) ++ [POEntry.raw newOutcome]
  ({ myOutcomes := some my
     activeProjects := c.activeProjects.map (setProjectOutcomes projectId updatedOutcomes)
     allProjects := c.allProjects.map (setProjectOutcomes projectId updatedOutcomes) },
   { id := projectId, name := projectName, status := projectStatus,
     priority := projectPriority,
     outcomeIds := ctx.currentOutcomeIds ++ [newOutcome.id] })

/-- `createOutcomeMutation.onError` of `OutcomeMultiSelect`: it invalidates
the three touched queries and shows the "Failed to create outcome" toast
with the raw error message.  It performs no `setData` write, so the cached
data is returned unchanged — the optimistic records stay in place until the
invalidated queries refetch. -/
def createOutcomeOnError (errMessage : String) (c : OutcomeCaches) :
    OutcomeCaches × List Event :=
  (c,
   [Event.invalidate Query.outcomeGetMyOutcomes,
    Event.invalidate Query.projectGetActiveWithDetails,
    Event.invalidate Query.projectGetAll,
    Event.notify "Failed to create outcome" errMessage])

/-- `updateProject.onMutate` of `OutcomeMultiSelect`: snapshot both project
caches, then (when `outcomeIds` is set — the source guards the optimistic
block with `if (outcomeIds)`) rewrite the target project's `outcomes` in
both caches to the latest `getMyOutcomes` entries filtered by membership in
`outcomeIds`, in the mapped shape.  Returns the new caches and the context
`{ previousActiveProjects, previousAllProjects }`. -/
def updateProjectOnMutate (projectId : String) (outcomeIds : Option (List String))
    (c : OutcomeCaches) :
    OutcomeCaches × (Option (List Project) × Option (List Project)) :=
  let previousActiveProjects := c.activeProjects
  let previousAllProjects := c.allProjects
  let c' := match outcomeIds with
    | none => c
    | some ids =>
      let latestAllOutcomes := c.myOutcomes.getD []
      let updatedOutcomes := latestAllOutcomes.filter fun o => ids.contains o.id
      let entries := updatedOutcomes.map (mapToProjectEntry projectId)
      { c with
        activeProjects := c.activeProjects.map (setProjectOutcomes projectId entries)
        allProjects := c.allProjects.map (setProjectOutcomes projectId entries) }
  (c', (previousActiveProjects, previousAllProjects))

/-- `updateProject.onError` of `OutcomeMultiSelect`: write each snapshot of
the context back when it is present.  No notification and no console
logging happen here. -/
def updateProjectOnError
    (ctx : Option (List Project) × Option (List Project))
    (c : OutcomeCaches) : OutcomeCaches × List Event :=
  let step1 : OutcomeCaches × List Event := match ctx.1 with
    | some prev =>
      ({ c with activeProjects := some prev },
       [Event.setData Query.projectGetActiveWithDetails])
    | none => (c, [])
  match ctx.2 with
  | some prev =>
    ({ step1.1 with allProjects := some prev },
     step1.2 ++ [Event.setData Query.projectGetAll])
  | none => step1

/-- Number of events of a trace satisfying `p`. -/
def countEvents (p : Event → Bool) (evs : List Event) : Nat :=
  (evs.filter p).length

/-- Recognises the `invalidate q` event. -/
def isInvalidateOf (q : Query) : Event → Bool
  | Event.invalidate q' => q' == q
  | _ => false

/-- Recognises mutation-settle events. -/
def isSettleEv : Event → Bool
  | Event.mutateSettle _ _ => true
  | _ => false

/-- Recognises cache-write (`setData`) events. -/
def isSetDataEv : Event → Bool
  | Event.setData _ => true
  | _ => false

/-- Recognises toast-notification events. -/
def isNotifyEv : Event → Bool
  | Event.notify _ _ => true
  | _ => false

/-- Recognises console-error events. -/
def isConsoleEv : Event → Bool
  | Event.consoleError _ => true
  | _ => false

/-- The action ids whose mutations were started, in trace order. -/
def startedIds (evs : List Event) : List String :=
  evs.filterMap fun e =>
    match e with
    | Event.mutateStart i => some i
    | _ => none

/-- Sequentiality check on a trace: `pending` counts mutations started but
not yet settled; the trace is sequential when no mutation starts while
another is in flight and no settle happens without a start. -/
def seqOk : Nat → List Event → Bool
  | _, [] => true
  | pending, Event.mutateStart _ :: r => pending == 0 && seqOk 1 r
  | pending, Event.mutateSettle _ _ :: r => pending == 1 && seqOk 0 r
  | pending, _ :: r => seqOk pending r

/-- Checks that every mutation start that follows a *successful* settle has
a delay event strictly in between.  The Boolean state records whether the
most recent settle/delay boundary was a successful settle with no delay
since. -/
def delayedAfterSuccess : Bool → List Event → Bool
  | _, [] => true
  | _, Event.mutateSettle _ ok :: r => delayedAfterSuccess ok r
  | _, Event.delayMs _ :: r => delayedAfterSuccess false r
  | seen, Event.mutateStart _ :: r => !seen && delayedAfterSuccess false r
  | seen, _ :: r => delayedAfterSuccess seen r

/-- Checks that every mutation start that follows *any* settle (successful
or failed) has a delay event strictly in between — the literal reading of
"a fixed delay inserted between consecutive mutations". -/
def delayBetweenAll : Bool → List Event → Bool
  | _, [] => true
  | _, Event.mutateSettle _ _ :: r => delayBetweenAll true r
  | _, Event.delayMs _ :: r => delayBetweenAll false r
  | pending, Event.mutateStart _ :: r => !pending && delayBetweenAll false r
  | pending, _ :: r => delayBetweenAll pending r

/-- How many of the scheduled actions the bulk loop processes: all of them
up to and including the first whose error message is classified as a
connection failure, and all of them when no such failure occurs. -/
def processedCount : List (String × Option String) → Nat
  | [] => 0
  | (_, none) :: r => processedCount r + 1
  | (_, some m) :: r => if isConnectionError m then 1 else processedCount r + 1

/-- Whether some outcome in the list carries the given id. -/
def outcomesContainId (tid : String) (l : List Outcome) : Bool :=
  l.any fun o => o.id == tid

/-- Whether some project in the list has an outcome entry with the given id. -/
def projectsContainId (tid : String) (ps : List Project) : Bool :=
  ps.any fun p => p.outcomes.any fun e => e.eid == tid

/-- Whether the given id occurs anywhere in the three outcome-side caches. -/
def cachesContainId (tid : String) (c : OutcomeCaches) : Bool :=
  outcomesContainId tid (c.myOutcomes.getD []) ||
    projectsContainId tid (c.activeProjects.getD []) ||
    projectsContainId tid (c.allProjects.getD [])

/-- C9: invoked with an empty list of action identifiers, the bulk
reschedule handler returns immediately: the cache is unchanged and no
event at all — no mutation, no cache write, no notification — is emitted. -/
theorem C9_empty_noop (date : Option Nat) (projectId : Option String)
    (cache : Option (List Action)) :
    handleOverdueBulkReschedule date projectId [] cache =
      { cache := cache, events := [] } := rfl

/-- C10: when the `action.getAll` cache holds no data at `onMutate` time,
the whole mutation run performs no `setData` write at all — neither the
optimistic write of `onMutate` nor the rollback of `onError` — and the
cache entry still holds no data afterwards. -/
theorem C10_no_data_no_write (id : String) (dueDate : Option Nat)
    (serverError : Option String) :
    (runActionUpdate id dueDate serverError none).cache = none ∧
    ((runActionUpdate id dueDate serverError none).events.any isSetDataEv) = false := by
  cases serverError <;>
    simp [runActionUpdate, isSetDataEv]

/-- C7 counterexample: in a concrete failing run of the action due-date
update, `action.getToday` is invalidated by `onSettled`, yet it is never
written (no `setData` for it, in particular no rollback restore), and the
mutation context's snapshot holds only the `action.getAll` data — so the
snapshot does not cover every query the handler invalidates. -/
theorem C7_counterexample :
    Event.invalidate Query.actionGetToday ∈
      (runActionUpdate "a1" none (some "boom") (some [])).events ∧
    Event.setData Query.actionGetToday ∉
      (runActionUpdate "a1" none (some "boom") (some [])).events ∧
    (runActionUpdate "a1" none (some "boom") (some [])).ctxPreviousData = some [] := by
  decide

/-- C7 (amended): the snapshot taken in `bulkUpdateMutation.onMutate` covers
only the full action list (`action.getAll`): the context's `previousData`
is exactly the `getAll` data, every `setData` write of the run targets
`getAll` only, and rollback on failure restores `getAll` to its exact
pre-mutation value, while `action.getToday` is invalidated without ever
having been snapshotted or restored. -/
theorem C7_snapshot_scope (id : String) (dueDate : Option Nat) (msg : String)
    (cache : Option (List Action)) :
    (runActionUpdate id dueDate (some msg) cache).ctxPreviousData = cache ∧
    (runActionUpdate id dueDate (some msg) cache).cache = cache ∧
    Event.invalidate Query.actionGetToday ∈
      (runActionUpdate id dueDate (some msg) cache).events ∧
    ((runActionUpdate id dueDate (some msg) cache).events.all
      (fun e => match e with
        | Event.setData q => q == Query.actionGetAll
        | _ => true)) = true := by
  cases cache <;>
    simp [runActionUpdate]

/-- C1 counterexample: after a failed outcome creation the touched cache
entries are not restored to the pre-mutation snapshot: starting from an
empty `getMyOutcomes` list, the provisional outcome written by `onMutate`
is still in the cache after `onError` ran (the handler only invalidates,
it performs no restoring write). -/
theorem C1_counterexample :
    (createOutcomeOnError "server rejected"
        (createOutcomeOnMutate "p1" [] 5 "new outcome"
          { myOutcomes := some [], activeProjects := none, allProjects := none }).1).1.myOutcomes ≠
      some [] ∧
    ((createOutcomeOnError "server rejected"
        (createOutcomeOnMutate "p1" [] 5 "new outcome"
          { myOutcomes := some [], activeProjects := none, allProjects := none }).1).2.any
      isSetDataEv) = false := by
  decide

/-- C1 (amended): on failure, the action due-date update handler restores
the exact pre-mutation `getAll` snapshot and shows a failure notification;
the outcome-creation handler shows a failure notification but performs no
restoring write — it leaves the optimistically written data in place and
only invalidates the touched queries; the project-update handler snapshots
both project caches in `onMutate` and its `onError` writes those snapshots
back exactly, but it shows no user-facing failure notification. -/
theorem C1_failure_handlers (id : String) (dueDate : Option Nat) (msg : String)
    (cache : Option (List Action)) (projectId : String)
    (outcomeIds : Option (List String)) (c later : OutcomeCaches)
    (snapActive snapAll : List Project) :
    ((runActionUpdate id dueDate (some msg) cache).cache = cache ∧
      ((runActionUpdate id dueDate (some msg) cache).events.any isNotifyEv) = true) ∧
    ((createOutcomeOnError msg c).1 = c ∧
      ((createOutcomeOnError msg c).2.any isNotifyEv) = true ∧
      ((createOutcomeOnError msg c).2.any isSetDataEv) = false) ∧
    ((updateProjectOnMutate projectId outcomeIds c).2 =
        (c.activeProjects, c.allProjects) ∧
      (updateProjectOnError (some snapActive, some snapAll) later).1.activeProjects =
        some snapActive ∧
      (updateProjectOnError (some snapActive, some snapAll) later).1.allProjects =
        some snapAll ∧
      ((updateProjectOnError (some snapActive, some snapAll) later).2.any isNotifyEv) =
        false) := by
  refine ⟨⟨?_, ?_⟩, ⟨rfl, by simp [createOutcomeOnError, isNotifyEv, isSetDataEv], ?_⟩,
    rfl, rfl, rfl, rfl⟩
  · cases cache <;> simp [runActionUpdate]
  · cases cache <;> simp [runActionUpdate, isNotifyEv]
  · simp [createOutcomeOnError, isSetDataEv]

/-- C8 counterexample: the failure of an API-token generation is handled by
its own `onError` handler, which shows a toast but does not log to the
console — so not every mutation failure is logged to a console stream. -/
theorem C8_counterexample :
    ((generateTokenOnError "boom").any isConsoleEv) = false ∧
    ((generateTokenOnError "boom").any isNotifyEv) = true := by
  decide

/-- C8 (amended): every mutation failure is caught by its own per-mutation
error handler and — except for the project-update handler, which neither
logs nor toasts — surfaced as a toast.  The action due-date update,
token-generation, token-revocation and bulk-delete toasts carry the raw
server error message with a handler-specific default substituted when the
message is empty (the `||` fallbacks of the source); the outcome-creation
toast carries the raw message unconditionally, with no fallback even for
an empty message.  Only the action due-date update handler also logs the
failure to the console. -/
theorem C8_failure_surfacing (msg id : String) (dueDate : Option Nat)
    (cache : Option (List Action)) (c : OutcomeCaches) :
    (Event.consoleError "onError" ∈
        (runActionUpdate id dueDate (some msg) cache).events ∧
      Event.notify "Update Failed"
          ("Failed to update action " ++ id ++ ": " ++
            (if msg = "" then "Unknown error" else msg)) ∈
        (runActionUpdate id dueDate (some msg) cache).events) ∧
    generateTokenOnError msg =
      [Event.notify "Error" (if msg = "" then "Failed to generate API key" else msg)] ∧
    revokeTokenOnError msg =
      [Event.notify "Error" (if msg = "" then "Failed to revoke API key" else msg)] ∧
    bulkDeleteOnError msg =
      [Event.notify "Delete Failed"
        (if msg = "" then "Failed to delete overdue actions" else msg)] ∧
    (Event.notify "Failed to create outcome" msg ∈ (createOutcomeOnError msg c).2 ∧
      ((createOutcomeOnError msg c).2.any isConsoleEv) = false) ∧
    (((updateProjectOnError (c.activeProjects, c.allProjects) c).2.any isNotifyEv) = false ∧
      ((updateProjectOnError (c.activeProjects, c.allProjects) c).2.any isConsoleEv) = false) := by
  refine ⟨⟨?_, ?_⟩, rfl, rfl, rfl, ⟨?_, ?_⟩, ?_, ?_⟩
  · cases cache <;> simp [runActionUpdate]
  · cases cache <;> simp [runActionUpdate]
  · simp [createOutcomeOnError]
  · simp [createOutcomeOnError, isConsoleEv]
  · cases hA : c.activeProjects <;> cases hB : c.allProjects <;>
      simp [updateProjectOnError, isNotifyEv]
  · cases hA : c.activeProjects <;> cases hB : c.allProjects <;>
      simp [updateProjectOnError, isConsoleEv]

theorem setProjectOutcomes_contains (pid tid : String) (outs : List POEntry)
    (ho : (outs.any fun e => e.eid == tid) = true) :
    ∀ ps : List Project, (ps.any fun p => p.id == pid) = true →
      projectsContainId tid (setProjectOutcomes pid outs ps) = true := by
  intro ps
  induction ps with
  | nil => intro hp; simp at hp
  | cons p ps ih =>
    intro hp
    by_cases hpp : p.id = pid
    · simp [projectsContainId, setProjectOutcomes, hpp, ho]
    · have hp' : (ps.any fun p => p.id == pid) = true := by
        rcases List.any_eq_true.mp hp with ⟨x, hx, hxp⟩
        rcases List.mem_cons.mp hx with rfl | hx'
        · exact absurd (by simpa using hxp) hpp
        · exact List.any_eq_true.mpr ⟨x, hx', hxp⟩
      have := ih hp'
      simp only [projectsContainId, setProjectOutcomes, List.map_cons, List.any_cons] at this ⊢
      simp [this]

/-- C4: `createOutcomeMutation.onMutate` synthesizes the provisional outcome
with temporary id `temp-${now}` (it is the `tempOutcome` of the returned
context) and writes it into the user's outcome list and, whenever the cache
holds data containing the target project, into both project list caches. -/
theorem C4_optimistic_writes (projectId : String) (currentOutcomes : List Outcome)
    (now : Nat) (description : String) (c : OutcomeCaches) (ps qs : List Project)
    (hA : c.activeProjects = some ps)
    (hpA : (ps.any fun p => p.id == projectId) = true)
    (hB : c.allProjects = some qs)
    (hpB : (qs.any fun p => p.id == projectId) = true) :
    (createOutcomeOnMutate projectId currentOutcomes now description c).2.tempOut =
      tempOutcome ("temp-" ++ toString now) description ∧
    outcomesContainId ("temp-" ++ toString now)
      ((createOutcomeOnMutate projectId currentOutcomes now description c).1.myOutcomes.getD []) =
      true ∧
    projectsContainId ("temp-" ++ toString now)
      ((createOutcomeOnMutate projectId currentOutcomes now description c).1.activeProjects.getD []) =
      true ∧
    projectsContainId ("temp-" ++ toString now)
      ((createOutcomeOnMutate projectId currentOutcomes now description c).1.allProjects.getD []) =
      true := by
  have hentries :
      (((currentOutcomes ++ [tempOutcome ("temp-" ++ toString now) description]).map
        (mapToProjectEntry projectId)).any fun e => e.eid == ("temp-" ++ toString now)) = true := by
    simp [List.any_map, mapToProjectEntry, tempOutcome, POEntry.eid, Function.comp]
  refine ⟨rfl, ?_, ?_, ?_⟩
  · cases hmy : c.myOutcomes <;>
      simp [createOutcomeOnMutate, hmy, outcomesContainId, tempOutcome]
  · have := setProjectOutcomes_contains projectId ("temp-" ++ toString now) _ hentries ps hpA
    simp only [List.map_append, List.map_cons, List.map_nil] at this
    simp [createOutcomeOnMutate, hA, this]
  · have := setProjectOutcomes_contains projectId ("temp-" ++ toString now) _ hentries qs hpB
    simp only [List.map_append, List.map_cons, List.map_nil] at this
    simp [createOutcomeOnMutate, hB, this]

/-- C4 witness: `C4_optimistic_writes` at a concrete cache holding one
project `p1` in each project cache. -/
theorem C4_witness :
    (({ myOutcomes := some [], activeProjects := some [{ id := "p1", outcomes := [] }],
        allProjects := some [{ id := "p1", outcomes := [] }] } : OutcomeCaches)).activeProjects =
      some [{ id := "p1", outcomes := [] }] ∧
    (([({ id := "p1", outcomes := [] } : Project)]).any fun p => p.id == "p1") = true ∧
    (({ myOutcomes := some [], activeProjects := some [{ id := "p1", outcomes := [] }],
        allProjects := some [{ id := "p1", outcomes := [] }] } : OutcomeCaches)).allProjects =
      some [{ id := "p1", outcomes := [] }] ∧
    ((createOutcomeOnMutate "p1" [] 5 "d"
        { myOutcomes := some [], activeProjects := some [{ id := "p1", outcomes := [] }],
          allProjects := some [{ id := "p1", outcomes := [] }] }).2.tempOut =
      tempOutcome ("temp-" ++ toString 5) "d" ∧
    outcomesContainId ("temp-" ++ toString 5)
      ((createOutcomeOnMutate "p1" [] 5 "d"
        { myOutcomes := some [], activeProjects := some [{ id := "p1", outcomes := [] }],
          allProjects := some [{ id := "p1", outcomes := [] }] }).1.myOutcomes.getD []) = true ∧
    projectsContainId ("temp-" ++ toString 5)
      ((createOutcomeOnMutate "p1" [] 5 "d"
        { myOutcomes := some [], activeProjects := some [{ id := "p1", outcomes := [] }],
          allProjects := some [{ id := "p1", outcomes := [] }] }).1.activeProjects.getD []) = true ∧
    projectsContainId ("temp-" ++ toString 5)
      ((createOutcomeOnMutate "p1" [] 5 "d"
        { myOutcomes := some [], activeProjects := some [{ id := "p1", outcomes := [] }],
          allProjects := some [{ id := "p1", outcomes := [] }] }).1.allProjects.getD []) = true) :=
  ⟨rfl, by decide, rfl,
   C4_optimistic_writes "p1" [] 5 "d"
     { myOutcomes := some [], activeProjects := some [{ id := "p1", outcomes := [] }],
       allProjects := some [{ id := "p1", outcomes := [] }] }
     [{ id := "p1", outcomes := [] }] [{ id := "p1", outcomes := [] }]
     rfl (by decide) rfl (by decide)⟩

/-- One successful outcome creation end to end: the `onMutate` phase
followed by the `onSuccess` phase (with the context `onMutate` returned),
as the two run for a mutation that resolves with server record
`newOutcome`. -/
def createOutcomeRoundtrip (projectId projectName projectStatus projectPriority : String)
    (currentOutcomes : List Outcome) (now : Nat) (description : String)
    (newOutcome : Outcome) (c0 : OutcomeCaches) : OutcomeCaches × UpdateProjectCall :=
  let m := createOutcomeOnMutate projectId currentOutcomes now description c0
  createOutcomeOnSuccess projectId projectName projectStatus projectPriority
    m.2 newOutcome m.1

theorem replaceById_free (tid : String) (nw : Outcome) (hnw : nw.id ≠ tid) :
    ∀ l : List Outcome, outcomesContainId tid (replaceById tid nw l) = false := by
  intro l
  induction l with
  | nil => rfl
  | cons o l ih =>
    by_cases h : o.id = tid <;>
      simp [replaceById, outcomesContainId, h, hnw] <;>
      simpa [replaceById, outcomesContainId] using ih

theorem replaceById_mem (tid : String) (nw : Outcome) (l : List Outcome)
    (o : Outcome) (hmem : o ∈ l) (hid : o.id = tid) :
    nw ∈ replaceById tid nw l :=
  List.mem_map.mpr ⟨o, hmem, by simp [hid]⟩

theorem updatedOutcomes_free (tid : String) (nw : Outcome) (hnw : nw.id ≠ tid)
    (l : List POEntry) :
    (((l.filter fun o => o.eid != tid) ++ [POEntry.raw nw]).any
      fun e => e.eid == tid) = false := by
  induction l with
  | nil => simp [POEntry.eid, hnw]
  | cons e l ih =>
    by_cases h : e.eid = tid <;>
      simp [List.filter_cons, h] <;>
      simpa using ih

theorem setProjectOutcomes_twice_free (pid tid : String) (e1 e2 : List POEntry)
    (h2 : (e2.any fun e => e.eid == tid) = false) :
    ∀ ps : List Project, projectsContainId tid ps = false →
      projectsContainId tid
        (setProjectOutcomes pid e2 (setProjectOutcomes pid e1 ps)) = false := by
  intro ps
  induction ps with
  | nil => intro _; rfl
  | cons p ps ih =>
    intro hps
    simp only [projectsContainId, List.any_cons, Bool.or_eq_false_iff] at hps
    have hrest := ih hps.2
    simp only [projectsContainId, setProjectOutcomes, List.map_cons, List.any_cons,
      Bool.or_eq_false_iff] at hrest ⊢
    refine ⟨?_, hrest⟩
    by_cases h : p.id = pid
    · simp [h, h2]
    · simp [h, hps.1]

/-- C3: after a successful outcome creation (the `onMutate` write followed
by the `onSuccess` rewrite), no occurrence of the temporary id
`temp-${now}` remains in any of the three affected caches (given that the
id was fresh, i.e. absent from the initial caches and different from the
server-assigned id), the server record itself is in the user's outcome
list, and the chained `project.update` mutation is issued for the target
project carrying the server-assigned identifier. -/
theorem C3_success_replaces_temp
    (projectId projectName projectStatus projectPriority : String)
    (currentOutcomes : List Outcome) (now : Nat) (description : String)
    (newOutcome : Outcome) (c0 : OutcomeCaches)
    (hfree : cachesContainId ("temp-" ++ toString now) c0 = false)
    (hid : newOutcome.id ≠ "temp-" ++ toString now) :
    cachesContainId ("temp-" ++ toString now)
      (createOutcomeRoundtrip projectId projectName projectStatus projectPriority
        currentOutcomes now description newOutcome c0).1 = false ∧
    newOutcome ∈
      ((createOutcomeRoundtrip projectId projectName projectStatus projectPriority
        currentOutcomes now description newOutcome c0).1.myOutcomes.getD []) ∧
    (createOutcomeRoundtrip projectId projectName projectStatus projectPriority
        currentOutcomes now description newOutcome c0).2.outcomeIds =
      currentOutcomes.map Outcome.id ++ [newOutcome.id] ∧
    (createOutcomeRoundtrip projectId projectName projectStatus projectPriority
        currentOutcomes now description newOutcome c0).2.id = projectId := by
  have hA : projectsContainId ("temp-" ++ toString now) (c0.activeProjects.getD []) = false := by
    have := hfree
    simp only [cachesContainId, Bool.or_eq_false_iff] at this
    exact this.1.2
  have hB : projectsContainId ("temp-" ++ toString now) (c0.allProjects.getD []) = false := by
    have := hfree
    simp only [cachesContainId, Bool.or_eq_false_iff] at this
    exact this.2
  refine ⟨?_, ?_, rfl, rfl⟩
  · simp only [cachesContainId, Bool.or_eq_false_iff]
    refine ⟨⟨?_, ?_⟩, ?_⟩
    · cases hmy : c0.myOutcomes <;>
        simp [createOutcomeRoundtrip, createOutcomeOnMutate, createOutcomeOnSuccess, hmy,
          replaceById_free _ _ hid]
    · cases hact : c0.activeProjects with
      | none =>
        simp [createOutcomeRoundtrip, createOutcomeOnMutate, createOutcomeOnSuccess, hact,
          projectsContainId]
      | some ps =>
        have hps : projectsContainId ("temp-" ++ toString now) ps = false := by
          simpa [hact] using hA
        simpa [createOutcomeRoundtrip, createOutcomeOnMutate, createOutcomeOnSuccess, hact] using
          setProjectOutcomes_twice_free projectId ("temp-" ++ toString now) _ _
            (updatedOutcomes_free _ newOutcome hid _) ps hps
    · cases hall : c0.allProjects with
      | none =>
        simp [createOutcomeRoundtrip, createOutcomeOnMutate, createOutcomeOnSuccess, hall,
          projectsContainId]
      | some qs =>
        have hqs : projectsContainId ("temp-" ++ toString now) qs = false := by
          simpa [hall] using hB
        simpa [createOutcomeRoundtrip, createOutcomeOnMutate, createOutcomeOnSuccess, hall] using
          setProjectOutcomes_twice_free projectId ("temp-" ++ toString now) _ _
            (updatedOutcomes_free _ newOutcome hid _) qs hqs
  · cases hmy : c0.myOutcomes with
    | none =>
      simp [createOutcomeRoundtrip, createOutcomeOnMutate, createOutcomeOnSuccess, hmy,
        replaceById, tempOutcome]
    | some old =>
      simp only [createOutcomeRoundtrip, createOutcomeOnMutate, createOutcomeOnSuccess, hmy,
        Option.getD_some]
      exact replaceById_mem _ newOutcome _ (tempOutcome ("temp-" ++ toString now) description)
        (by simp) rfl

/-- C3 witness: `C3_success_replaces_temp` at a concrete creation against a
cache holding one project `p1`, with server-assigned id `o1`. -/
theorem C3_witness :
    cachesContainId ("temp-" ++ toString 5)
      { myOutcomes := some [], activeProjects := some [{ id := "p1", outcomes := [] }],
        allProjects := some [{ id := "p1", outcomes := [] }] } = false ∧
    ({ id := "o1", description := "d", otype := "weekly", dueDate := none,
       status := "ACTIVE", createdById := "u1" } : Outcome).id ≠ "temp-" ++ toString 5 ∧
    (cachesContainId ("temp-" ++ toString 5)
      (createOutcomeRoundtrip "p1" "proj" "ACTIVE" "HIGH" [] 5 "d"
        { id := "o1", description := "d", otype := "weekly", dueDate := none,
          status := "ACTIVE", createdById := "u1" }
        { myOutcomes := some [], activeProjects := some [{ id := "p1", outcomes := [] }],
          allProjects := some [{ id := "p1", outcomes := [] }] }).1 = false ∧
    ({ id := "o1", description := "d", otype := "weekly", dueDate := none,
       status := "ACTIVE", createdById := "u1" } : Outcome) ∈
      ((createOutcomeRoundtrip "p1" "proj" "ACTIVE" "HIGH" [] 5 "d"
        { id := "o1", description := "d", otype := "weekly", dueDate := none,
          status := "ACTIVE", createdById := "u1" }
        { myOutcomes := some [], activeProjects := some [{ id := "p1", outcomes := [] }],
          allProjects := some [{ id := "p1", outcomes := [] }] }).1.myOutcomes.getD []) ∧
    (createOutcomeRoundtrip "p1" "proj" "ACTIVE" "HIGH" [] 5 "d"
        { id := "o1", description := "d", otype := "weekly", dueDate := none,
          status := "ACTIVE", createdById := "u1" }
        { myOutcomes := some [], activeProjects := some [{ id := "p1", outcomes := [] }],
          allProjects := some [{ id := "p1", outcomes := [] }] }).2.outcomeIds =
      ([] : List Outcome).map Outcome.id ++
        [({ id := "o1", description := "d", otype := "weekly", dueDate := none,
            status := "ACTIVE", createdById := "u1" } : Outcome).id] ∧
    (createOutcomeRoundtrip "p1" "proj" "ACTIVE" "HIGH" [] 5 "d"
        { id := "o1", description := "d", otype := "weekly", dueDate := none,
          status := "ACTIVE", createdById := "u1" }
        { myOutcomes := some [], activeProjects := some [{ id := "p1", outcomes := [] }],
          allProjects := some [{ id := "p1", outcomes := [] }] }).2.id = "p1") :=
  ⟨by decide, by decide,
   C3_success_replaces_temp "p1" "proj" "ACTIVE" "HIGH" [] 5 "d"
     { id := "o1", description := "d", otype := "weekly", dueDate := none,
       status := "ACTIVE", createdById := "u1" }
     { myOutcomes := some [], activeProjects := some [{ id := "p1", outcomes := [] }],
       allProjects := some [{ id := "p1", outcomes := [] }] }
     (by decide) (by decide)⟩

theorem startedIds_append (a b : List Event) :
    startedIds (a ++ b) = startedIds a ++ startedIds b :=
  List.filterMap_append a b _

theorem startedIds_run (id : String) (dueDate : Option Nat)
    (serverError : Option String) (cache : Option (List Action)) :
    startedIds (runActionUpdate id dueDate serverError cache).events = [id] := by
  cases serverError <;> cases cache <;>
    simp [runActionUpdate, startedIds]

theorem startedIds_delay (n : Nat) : startedIds [Event.delayMs n] = [] := rfl

theorem startedIds_cons_delay (n : Nat) (t : List Event) :
    startedIds (Event.delayMs n :: t) = startedIds t := rfl

/-- C6: the bulk reschedule loop processes the scheduled actions in order
and stops early if and only if a mutation fails with a message classified
(by substring matching) as a connection failure: the recorded results and
the started mutations are exactly the prefix of the input delimited by
`processedCount`, which runs past every success and every non-connection
failure and cuts immediately after the first connection failure. -/
theorem C6_abort_iff_connection (date : Option Nat) (cache : Option (List Action))
    (actions : List (String × Option String)) :
    (bulkLoop date actions cache).results =
      actions.take (processedCount actions) ∧
    startedIds (bulkLoop date actions cache).events =
      (actions.take (processedCount actions)).map Prod.fst := by
  induction actions generalizing cache with
  | nil => simp [bulkLoop, processedCount, startedIds]
  | cons a rest ih =>
    obtain ⟨id, err⟩ := a
    cases err with
    | none =>
      have hres := (ih (runActionUpdate id date none cache).cache).1
      have hev := (ih (runActionUpdate id date none cache).cache).2
      cases rest with
      | nil =>
        simp [bulkLoop, processedCount, startedIds_append, startedIds_run]
      | cons b bs =>
        rw [show bulkLoop date ((id, (none : Option String)) :: b :: bs) cache =
            { cache := (bulkLoop date (b :: bs) (runActionUpdate id date none cache).cache).cache,
              events := (runActionUpdate id date none cache).events ++ [Event.delayMs 100] ++
                (bulkLoop date (b :: bs) (runActionUpdate id date none cache).cache).events,
              results := (id, (none : Option String)) ::
                (bulkLoop date (b :: bs) (runActionUpdate id date none cache).cache).results }
          from rfl]
        refine ⟨?_, ?_⟩
        · simpa [processedCount] using hres
        · simp [processedCount, startedIds_append, startedIds_run,
            startedIds_delay, startedIds_cons_delay, hev, List.map_take]
    | some m =>
      have hres := (ih (runActionUpdate id date (some m) cache).cache).1
      have hev := (ih (runActionUpdate id date (some m) cache).cache).2
      by_cases hconn : isConnectionError m
      · simp [bulkLoop, processedCount, hconn, startedIds_run]
      · refine ⟨?_, ?_⟩
        · simpa [bulkLoop, processedCount, hconn] using hres
        · simp [bulkLoop, processedCount, hconn, startedIds_append, startedIds_run, hev]

theorem bulkLoop_cons_none (date : Option Nat) (id : String)
    (rest : List (String × Option String)) (cache : Option (List Action)) :
    bulkLoop date ((id, (none : Option String)) :: rest) cache =
      { cache := (bulkLoop date rest (runActionUpdate id date none cache).cache).cache
        events := (runActionUpdate id date none cache).events ++
          (if rest.isEmpty then [] else [Event.delayMs 100]) ++
          (bulkLoop date rest (runActionUpdate id date none cache).cache).events
        results := (id, (none : Option String)) ::
          (bulkLoop date rest (runActionUpdate id date none cache).cache).results } := rfl

theorem bulkLoop_cons_some (date : Option Nat) (id msg : String)
    (rest : List (String × Option String)) (cache : Option (List Action)) :
    bulkLoop date ((id, some msg) :: rest) cache =
      if isConnectionError msg then
        { cache := (runActionUpdate id date (some msg) cache).cache
          events := (runActionUpdate id date (some msg) cache).events
          results := [(id, some msg)] }
      else
        { cache := (bulkLoop date rest (runActionUpdate id date (some msg) cache).cache).cache
          events := (runActionUpdate id date (some msg) cache).events ++
            (bulkLoop date rest (runActionUpdate id date (some msg) cache).cache).events
          results := (id, some msg) ::
            (bulkLoop date rest (runActionUpdate id date (some msg) cache).cache).results } := rfl

theorem seqOk_run (id : String) (dueDate : Option Nat) (serverError : Option String)
    (cache : Option (List Action)) (t : List Event) :
    seqOk 0 ((runActionUpdate id dueDate serverError cache).events ++ t) = seqOk 0 t := by
  cases serverError <;> cases cache <;>
    simp [runActionUpdate, seqOk]

theorem delayed_run (id : String) (dueDate : Option Nat) (serverError : Option String)
    (cache : Option (List Action)) (t : List Event) :
    delayedAfterSuccess false ((runActionUpdate id dueDate serverError cache).events ++ t) =
      delayedAfterSuccess serverError.isNone t := by
  cases serverError <;> cases cache <;>
    simp [runActionUpdate, delayedAfterSuccess]

theorem seqOk_bulkLoop (date : Option Nat) (actions : List (String × Option String)) :
    ∀ (cache : Option (List Action)) (t : List Event),
      seqOk 0 ((bulkLoop date actions cache).events ++ t) = seqOk 0 t := by
  induction actions with
  | nil => intro c t; simp [bulkLoop]
  | cons a rest ih =>
    intro c t
    obtain ⟨id, err⟩ := a
    cases err with
    | none =>
      have hdel : ∀ X : List Event,
          seqOk 0 ((if rest.isEmpty then [] else [Event.delayMs 100]) ++ X) = seqOk 0 X := by
        intro X
        cases rest.isEmpty <;> simp [seqOk]
      rw [bulkLoop_cons_none]
      rw [List.append_assoc, List.append_assoc, seqOk_run, hdel, ih]
    | some m =>
      rw [bulkLoop_cons_some]
      by_cases hconn : isConnectionError m
      · rw [if_pos hconn, seqOk_run]
      · rw [if_neg hconn, List.append_assoc, seqOk_run, ih]

theorem delayed_bulkLoop (date : Option Nat) (actions : List (String × Option String)) :
    ∀ (cache : Option (List Action)) (t : List Event),
      (∀ s, delayedAfterSuccess s t = true) →
      delayedAfterSuccess false ((bulkLoop date actions cache).events ++ t) = true := by
  induction actions with
  | nil => intro c t ht; simpa [bulkLoop] using ht false
  | cons a rest ih =>
    intro c t ht
    obtain ⟨id, err⟩ := a
    cases err with
    | none =>
      rw [bulkLoop_cons_none, List.append_assoc, List.append_assoc, delayed_run]
      simp only [Option.isNone_none]
      cases rest with
      | nil => simpa [bulkLoop] using ht true
      | cons b bs =>
        rw [if_neg (by simp : ¬(((b :: bs).isEmpty) = true))]
        simp only [List.cons_append, List.nil_append]
        rw [show ∀ X, delayedAfterSuccess true (Event.delayMs 100 :: X) =
            delayedAfterSuccess false X from fun X => rfl]
        exact ih _ t ht
    | some m =>
      rw [bulkLoop_cons_some]
      by_cases hconn : isConnectionError m
      · rw [if_pos hconn, delayed_run]
        exact ht false
      · rw [if_neg hconn, List.append_assoc, delayed_run]
        exact ih _ t ht

theorem seqOk_cons_notify (p : Nat) (a b : String) (t : List Event) :
    seqOk p (Event.notify a b :: t) = seqOk p t := rfl

theorem seqOk_cons_inv (p : Nat) (q : Query) (t : List Event) :
    seqOk p (Event.invalidate q :: t) = seqOk p t := rfl

theorem delayed_cons_notify (s : Bool) (a b : String) (t : List Event) :
    delayedAfterSuccess s (Event.notify a b :: t) = delayedAfterSuccess s t := rfl

theorem delayed_cons_inv (s : Bool) (q : Query) (t : List Event) :
    delayedAfterSuccess s (Event.invalidate q :: t) = delayedAfterSuccess s t := rfl

/-- C5 counterexample: the claim's "fixed delay inserted between consecutive
mutations" fails when a mutation rejects with a non-connection error: in a
bulk run over two actions where the first fails with `"boom"`, the second
mutation starts with no delay event between the first settle and the
second start. -/
theorem C5_counterexample :
    delayBetweenAll false
      (handleOverdueBulkReschedule none none
        [("a1", some "boom"), ("a2", none)] (some [])).events = false := by
  decide

/-- C5 (amended): mutations of the bulk reschedule are issued strictly one
at a time — every trace of the handler is sequential (no mutation starts
while another is in flight) — and the fixed 100 ms delay is inserted after
every successful non-final mutation; after a failed mutation the next one
starts without an intervening delay. -/
theorem C5_sequential_delay (date : Option Nat) (projectId : Option String)
    (actions : List (String × Option String)) (cache : Option (List Action)) :
    seqOk 0 (handleOverdueBulkReschedule date projectId actions cache).events = true ∧
    delayedAfterSuccess false
      (handleOverdueBulkReschedule date projectId actions cache).events = true := by
  by_cases h0 : actions.length = 0
  · simp [handleOverdueBulkReschedule, h0, seqOk, delayedAfterSuccess]
  · constructor
    · simp only [handleOverdueBulkReschedule]
      rw [if_neg h0]
      split
      · dsimp only
        simp only [List.cons_append, List.append_assoc]
        rw [seqOk_cons_notify, seqOk_bulkLoop]
        rfl
      · dsimp only
        simp only [List.cons_append, List.append_assoc]
        rw [seqOk_cons_notify, seqOk_bulkLoop]
        cases projectId <;> rfl
    · simp only [handleOverdueBulkReschedule]
      rw [if_neg h0]
      split
      · dsimp only
        simp only [List.cons_append, List.append_assoc]
        rw [delayed_cons_notify]
        exact delayed_bulkLoop date actions cache _ (by intro s; cases s <;> rfl)
      · dsimp only
        simp only [List.cons_append, List.append_assoc]
        rw [delayed_cons_notify]
        refine delayed_bulkLoop date actions cache _ ?_
        intro s
        cases projectId <;> cases s <;> rfl

/-- Recognises an `invalidate` of `action.getAll`. -/
def isInvalidateGetAll : Event → Bool
  | Event.invalidate Query.actionGetAll => true
  | _ => false

/-- Recognises an `invalidate` of `action.getToday`. -/
def isInvalidateGetToday : Event → Bool
  | Event.invalidate Query.actionGetToday => true
  | _ => false

theorem countEvents_append (p : Event → Bool) (a b : List Event) :
    countEvents p (a ++ b) = countEvents p a + countEvents p b := by
  simp [countEvents, List.filter_append]

theorem countEvents_nil (p : Event → Bool) : countEvents p [] = 0 := rfl

theorem countEvents_cons (p : Event → Bool) (e : Event) (t : List Event) :
    countEvents p (e :: t) = (if p e then 1 else 0) + countEvents p t := by
  cases h : p e <;> simp [countEvents, List.filter_cons, h, Nat.add_comm]

theorem runActionUpdate_count_invAll (id : String) (dueDate : Option Nat)
    (serverError : Option String) (cache : Option (List Action)) :
    countEvents isInvalidateGetAll (runActionUpdate id dueDate serverError cache).events = 1 := by
  cases serverError <;> cases cache <;>
    simp [runActionUpdate, countEvents, isInvalidateGetAll]

theorem runActionUpdate_count_invToday (id : String) (dueDate : Option Nat)
    (serverError : Option String) (cache : Option (List Action)) :
    countEvents isInvalidateGetToday (runActionUpdate id dueDate serverError cache).events = 1 := by
  cases serverError <;> cases cache <;>
    simp [runActionUpdate, countEvents, isInvalidateGetToday]

theorem runActionUpdate_count_settle (id : String) (dueDate : Option Nat)
    (serverError : Option String) (cache : Option (List Action)) :
    countEvents isSettleEv (runActionUpdate id dueDate serverError cache).events = 1 := by
  cases serverError <;> cases cache <;>
    simp [runActionUpdate, countEvents, isSettleEv]

theorem bulkLoop_count (date : Option Nat) (actions : List (String × Option String)) :
    ∀ cache : Option (List Action),
      countEvents isInvalidateGetAll (bulkLoop date actions cache).events =
        (bulkLoop date actions cache).results.length ∧
      countEvents isInvalidateGetToday (bulkLoop date actions cache).events =
        (bulkLoop date actions cache).results.length ∧
      countEvents isSettleEv (bulkLoop date actions cache).events =
        (bulkLoop date actions cache).results.length := by
  induction actions with
  | nil => intro c; simp [bulkLoop, countEvents]
  | cons a rest ih =>
    intro c
    obtain ⟨id, err⟩ := a
    cases err with
    | none =>
      obtain ⟨h1, h2, h3⟩ := ih (runActionUpdate id date none c).cache
      rw [bulkLoop_cons_none]
      cases hrest : rest.isEmpty <;>
        refine ⟨?_, ?_, ?_⟩ <;>
          simp [hrest, countEvents_append, countEvents_cons, countEvents_nil,
            runActionUpdate_count_invAll, runActionUpdate_count_invToday,
            runActionUpdate_count_settle, isInvalidateGetAll, isInvalidateGetToday,
            isSettleEv, h1, h2, h3] <;>
          omega
    | some m =>
      obtain ⟨h1, h2, h3⟩ := ih (runActionUpdate id date (some m) c).cache
      rw [bulkLoop_cons_some]
      by_cases hconn : isConnectionError m
      · rw [if_pos hconn]
        refine ⟨?_, ?_, ?_⟩ <;>
          simp [runActionUpdate_count_invAll, runActionUpdate_count_invToday,
            runActionUpdate_count_settle]
      · rw [if_neg hconn]
        refine ⟨?_, ?_, ?_⟩ <;>
          simp [countEvents_append, runActionUpdate_count_invAll,
            runActionUpdate_count_invToday, runActionUpdate_count_settle, h1, h2, h3] <;>
          omega

theorem bulkLoop_any_failed (date : Option Nat) (actions : List (String × Option String)) :
    ∀ cache : Option (List Action),
      ((bulkLoop date actions cache).results.any fun r => r.2.isSome) =
        (actions.any fun a => a.2.isSome) := by
  induction actions with
  | nil => intro c; rfl
  | cons a rest ih =>
    intro c
    obtain ⟨id, err⟩ := a
    cases err with
    | none =>
      rw [bulkLoop_cons_none]
      simp [ih]
    | some m =>
      rw [bulkLoop_cons_some]
      by_cases hconn : isConnectionError m
      · simp [hconn]
      · simp [hconn, ih]

theorem filter_length_eq_zero_iff {α : Type} (p : α → Bool) (l : List α) :
    ((l.filter p).length = 0) ↔ (l.any p) = false := by
  induction l with
  | nil => simp
  | cons a l ih =>
    cases h : p a <;> simp [List.filter_cons, h, ih]

/-- C2 counterexample: in a bulk reschedule of a single action that
succeeds, `action.getAll` is invalidated twice (once by the settled
mutation's `onSettled`, once by the handler's final `Promise.all`) although
only one mutation settled — so invalidation is not exactly once per settled
mutation. -/
theorem C2_counterexample :
    countEvents isInvalidateGetAll
      (handleOverdueBulkReschedule none none [("a1", none)] (some [])).events = 2 ∧
    countEvents isSettleEv
      (handleOverdueBulkReschedule none none [("a1", none)] (some [])).events = 1 := by
  decide

/-- C2 (amended): each settled action-update mutation invalidates each of
its affected queries (`action.getAll`, `action.getToday`) exactly once in
`onSettled`; the bulk handler adds exactly one extra invalidation of the
affected queries when (and only when) the run is nonempty and fully
successful, so across a bulk run `action.getAll` is invalidated once per
settled mutation plus one on full success. -/
theorem C2_invalidation_counts (id : String) (dueDate : Option Nat)
    (serverError : Option String) (mcache : Option (List Action))
    (date : Option Nat) (projectId : Option String)
    (actions : List (String × Option String)) (cache : Option (List Action)) :
    countEvents isInvalidateGetAll (runActionUpdate id dueDate serverError mcache).events = 1 ∧
    countEvents isInvalidateGetToday (runActionUpdate id dueDate serverError mcache).events = 1 ∧
    countEvents isSettleEv (runActionUpdate id dueDate serverError mcache).events = 1 ∧
    countEvents isInvalidateGetAll
        (handleOverdueBulkReschedule date projectId actions cache).events =
      countEvents isSettleEv
          (handleOverdueBulkReschedule date projectId actions cache).events +
        (if (!actions.isEmpty) && !(actions.any fun a => a.2.isSome) then 1 else 0) := by
  refine ⟨runActionUpdate_count_invAll id dueDate serverError mcache,
    runActionUpdate_count_invToday id dueDate serverError mcache,
    runActionUpdate_count_settle id dueDate serverError mcache, ?_⟩
  by_cases h0 : actions.length = 0
  · have hnil : actions = [] := List.length_eq_zero.mp h0
    subst hnil
    simp [handleOverdueBulkReschedule, countEvents]
  · obtain ⟨hc1, hc2, hc3⟩ := bulkLoop_count date actions cache
    simp only [handleOverdueBulkReschedule]
    rw [if_neg h0]
    split
    next hfail =>
      have hany : (actions.any fun a => a.2.isSome) = true := by
        rw [← bulkLoop_any_failed date actions cache]
        cases h : ((bulkLoop date actions cache).results.any fun r => r.2.isSome)
        · exact absurd ((filter_length_eq_zero_iff _ _).mpr h)
            (Nat.pos_iff_ne_zero.mp hfail)
        · rfl
      dsimp only
      simp [List.cons_append, List.append_assoc, countEvents_cons, countEvents_append,
        countEvents_nil, isInvalidateGetAll, isSettleEv, hc1, hc3, hany]
    next hfail =>
      have hlen0 : ((bulkLoop date actions cache).results.filter fun r => r.2.isSome).length = 0 :=
        Nat.eq_zero_of_not_pos hfail
      have hany : (actions.any fun a => a.2.isSome) = false := by
        rw [← bulkLoop_any_failed date actions cache]
        exact (filter_length_eq_zero_iff _ _).mp hlen0
      have hne : (!actions.isEmpty) = true := by
        cases actions with
        | nil => exact absurd rfl h0
        | cons a l => rfl
      dsimp only
      cases projectId <;>
        simp [List.cons_append, List.append_assoc, countEvents_cons, countEvents_append,
          countEvents_nil, isInvalidateGetAll, isSettleEv, hc1, hc3, hany, hne]

end Exponential
